import Mathlib

/-!
A shallow embedding of the merge/extraction core of a layered configuration
engine ("Figment"), centred on the magic-value protocol of
`src/value/magic.rs`: the `Tagged`, `RelativePathBuf` and `Either` wrapper
types, their `deserialize_from` reconstruction hooks, and the accessors
`original`, `relative`, `metadata_path`, `metadata_id`, `into_inner`.

The value tree, tag, metadata registry and deserializer bridge live in source
files that are not part of the provided sources (`value/value.rs`,
`value/tag.rs`, `value/de.rs`, the engine itself); those are modelled from the
specification and are marked as such in their doc comments.  Everything in
`magic.rs` is translated directly from that file.
-/

namespace Figment

/-- Metadata identifier: a plain integer handle assigned by the registry
(`Id` in the source; its definition is in the absent `value/tag.rs`, but
`magic.rs` uses it as a newtype over an integer via `id.0`). -/
abbrev Id := Nat

/-- Modelled from the spec: a value's provenance tag
`(profile-name, metadata-id, an ordinal disambiguator)`; the empty/default
tag has no metadata id (`value/tag.rs` is not among the provided sources). -/
structure Tag where
  profile : Option String
  metadataId : Option Id
  ordinal : Nat
deriving DecidableEq, Repr

/-- The empty/default tag carried by values not sourced from a provider. -/
def Tag.empty : Tag := ⟨none, none, 0⟩

/-- Setting the metadata id of a tag, used when the merge engine stamps
provider output. -/
def Tag.withId (t : Tag) (id : Id) : Tag := { t with metadataId := some id }

/-- Modelled from the spec: numbers preserve the integer/float distinction and
signedness (`value/value.rs` is not among the provided sources). -/
inductive Num where
  | i (v : Int)
  | u (v : Nat)
  | f (v : Rat)
deriving DecidableEq, Repr

/-- Modelled from the spec: the self-describing, provenance-tagged value tree
with variants Null, Bool, String, Number, Array and Dict, every node carrying
a tag (`value/value.rs` is not among the provided sources). -/
inductive Value where
  | null (t : Tag)
  | bool (t : Tag) (b : Bool)
  | str (t : Tag) (s : String)
  | num (t : Tag) (n : Num)
  | arr (t : Tag) (xs : List Value)
  | dict (t : Tag) (d : List (String × Value))

/-- The tag of a value's root node. -/
def Value.tag : Value → Tag
  | .null t | .bool t _ | .str t _ | .num t _ | .arr t _ | .dict t _ => t

/-- `Value::metadata_id()`: the metadata id recorded in the node's tag. -/
def Value.metadata_id (v : Value) : Option Id := v.tag.metadataId

/-- `Value::as_dict()`: the underlying map when the value is a `Dict`. -/
def Value.as_dict : Value → Option (List (String × Value))
  | .dict _ d => some d
  | _ => none

/-- ASCII case folding of one character, by code point. -/
def foldChar (c : Char) : Nat :=
  if 65 ≤ c.toNat ∧ c.toNat ≤ 90 then c.toNat + 32 else c.toNat

/-- Case-insensitive (case-folding) key comparison, as `UncasedStr` provides
for dict keys. -/
def keyEqCI (a b : String) : Bool :=
  a.data.map foldChar == b.data.map foldChar

/-- Modelled from the spec: dict lookup is case-insensitive on keys. -/
def dictGet (d : List (String × Value)) (k : String) : Option Value :=
  (d.find? (fun p => keyEqCI p.1 k)).map Prod.snd

/-- Extraction errors; `magic.rs` only builds them from formatted strings
(`de::Error::custom`), so they are modelled as their messages
(`error.rs` is not among the provided sources). -/
abbrev Error := String

/-- A filesystem path: a root flag plus components, mirroring the slice of
`std::path::Path` behaviour `magic.rs` relies on (`has_root`, `parent`,
`join`, `display`). -/
structure FPath where
  absolute : Bool
  comps : List String
deriving DecidableEq, Repr

/-- `Path::has_root()`. -/
def FPath.hasRoot (p : FPath) : Bool := p.absolute

/-- `Path::parent()`: drop the last component; `None` when there is none. -/
def FPath.parent (p : FPath) : Option FPath :=
  match p.comps with
  | [] => none
  | _ => some ⟨p.absolute, p.comps.dropLast⟩

/-- `Path::join()`: a rooted argument replaces the receiver. -/
def FPath.join (a b : FPath) : FPath :=
  if b.absolute then b else ⟨a.absolute, a.comps ++ b.comps⟩

/-- `Path::display().to_string()`. -/
def FPath.display (p : FPath) : String :=
  (if p.absolute then "/" else "") ++ String.intercalate "/" p.comps

/-- Splitting a character list on the path separator. -/
def splitOnSlash : List Char → List (List Char)
  | [] => [[]]
  | c :: rest =>
    let r := splitOnSlash rest
    if c = '/' then [] :: r
    else
      match r with
      | [] => [[c]]
      | g :: gs => (c :: g) :: gs

/-- `PathBuf` deserialized from a string (used when the payload of a
`RelativePathBuf` synthetic dict is materialized). -/
def FPath.parse (s : String) : FPath :=
  match s.data with
  | '/' :: rest =>
    ⟨true, ((splitOnSlash rest).filter (fun g => g ≠ [])).map (fun g => ⟨g⟩)⟩
  | cs =>
    ⟨false, ((splitOnSlash cs).filter (fun g => g ≠ [])).map (fun g => ⟨g⟩)⟩

/-- Modelled from the spec: a provider's source descriptor; `magic.rs` only
asks it for `file_path()`. -/
inductive Source where
  | file (p : FPath)
  | custom (d : String)
deriving DecidableEq, Repr

/-- `Source::file_path()`: the file path when the source is file-backed. -/
def Source.file_path : Source → Option FPath
  | .file p => some p
  | .custom _ => none

/-- Modelled from the spec: a metadata record
`{ name, source, interpolate }` owned by the registry. -/
structure Metadata where
  name : String
  source : Option Source
  interpolate : Bool
deriving DecidableEq, Repr

/-- The registry view handed to magic reconstruction hooks (`de.config` in the
source): read access to the metadata table.  Ids are assigned as positions in
the append-only table. -/
structure Config where
  metadata : List Metadata
deriving DecidableEq, Repr

/-- `Figment::get_metadata(Id)`: read-only lookup that returns absence on an
unknown id. -/
def Config.get_metadata (c : Config) (i : Id) : Option Metadata :=
  c.metadata.get? i

/-- The serde field name `___figment_tagged_metadata_id` of `Tagged`. -/
def taggedIdField : String := "___figment_tagged_metadata_id"

/-- The serde field name `___figment_tagged_value` of `Tagged`. -/
def taggedValueField : String := "___figment_tagged_value"

/-- The serde field name `___figment_relative_metadata_path` of
`RelativePathBuf`. -/
def rpbMetaField : String := "___figment_relative_metadata_path"

/-- The serde field name `___figment_relative_path` of `RelativePathBuf`. -/
def rpbPathField : String := "___figment_relative_path"

/-- `RelativePathBuf`: a path that remembers the file it was configured in. -/
structure RelativePathBuf where
  metadata_path : Option FPath
  path : FPath
deriving DecidableEq, Repr

/-- `Magic::NAME` for `RelativePathBuf`. -/
def RelativePathBuf.NAME : String := "___figment_relative_path_buf"

/-- `Magic::FIELDS` for `RelativePathBuf`; the last one is the payload. -/
def RelativePathBuf.FIELDS : List String := [rpbMetaField, rpbPathField]

/-- `RelativePathBuf::original()`: the path as declared, unmodified. -/
def RelativePathBuf.original (p : RelativePathBuf) : FPath := p.path

/-- `RelativePathBuf::relative()`.  `Path::is_dir()` queries the filesystem,
so the filesystem state enters as the oracle `isDir`. -/
def RelativePathBuf.relative (isDir : FPath → Bool) (p : RelativePathBuf) : FPath :=
  if p.original.hasRoot then p.original
  else
    match p.metadata_path.bind
        (fun root => if isDir root then some root else root.parent) with
    | some root => root.join p.original
    | none => p.original

/-- `impl PartialEq for RelativePathBuf`: compares the resolved paths
(`relative()` consults the filesystem, hence the oracle). -/
def RelativePathBuf.eq (isDir : FPath → Bool) (a b : RelativePathBuf) : Bool :=
  a.relative isDir == b.relative isDir

/-- The resolution chain inside `RelativePathBuf::deserialize_from`: the
node's tag id, resolved through the registry to a metadata record, to its
source's file path (when file-backed). -/
def resolvedFilePath (c : Config) (v : Value) : Option FPath :=
  (v.metadata_id.bind c.get_metadata).bind
    (fun m => m.source.bind Source.file_path)

/-- `RelativePathBuf::deserialize_from`: builds the synthetic dict
`{ metadata-path (when the tag resolves to a file-backed source), payload }`.
Returned alongside its (empty) stdout trace, matching the effect signature of
the other hook. -/
def RelativePathBuf.deserialize_from (c : Config) (v : Value) :
    List String × List (String × Value) :=
  let metaPath : Option String := (resolvedFilePath c v).map FPath.display
  let head : List (String × Value) :=
    match metaPath with
    | some p => [(rpbMetaField, Value.str Tag.empty p)]
    | none => []
  ([], head ++ [(rpbPathField, v)])

/-- Modelled from the spec: the serde-derived struct deserializer of
`RelativePathBuf` (generated code, not among the provided sources) reads the
optional metadata-path field and the mandatory payload field from a map,
materializing both as paths from their string form. -/
def RelativePathBuf.fromMap (m : List (String × Value)) :
    Except Error RelativePathBuf :=
  let metaPath : Except Error (Option FPath) :=
    match dictGet m rpbMetaField with
    | none => .ok none
    | some (Value.str _ s) => .ok (some (FPath.parse s))
    | some _ => .error "invalid type: expected a path string"
  match metaPath with
  | .error e => .error e
  | .ok mp =>
    match dictGet m rpbPathField with
    | some (Value.str _ s) => .ok ⟨mp, FPath.parse s⟩
    | some _ => .error "invalid type: expected a path string"
    | none => .error "missing field: path"

/-- `Tagged<T>`: a value plus the metadata id of the provider that sourced
it. -/
structure Tagged (T : Type) where
  metadata_id : Option Id
  value : T
deriving DecidableEq, Repr

/-- `Magic::NAME` for `Tagged`. -/
def Tagged.NAME : String := "___figment_tagged_item"

/-- `Magic::FIELDS` for `Tagged`; the last one is the payload. -/
def Tagged.FIELDS : List String := [taggedIdField, taggedValueField]

/-- `impl PartialEq for Tagged<T>`: compares only the payloads. -/
def Tagged.eq {T : Type} [BEq T] (a b : Tagged T) : Bool :=
  a.value == b.value

/-- `Tagged::into_inner()`. -/
def Tagged.into_inner {T : Type} (t : Tagged T) : T := t.value

/-- `Tagged::deserialize_from`: builds the synthetic dict
`{ metadata-id (when the tag has one), payload }`.  The source prints
`from: tagged` to stdout on every call; the first component records that
observable output. -/
def Tagged.deserialize_from (c : Config) (v : Value) :
    List String × List (String × Value) :=
  let head : List (String × Value) :=
    match v.metadata_id with
    | some id => [(taggedIdField, Value.num Tag.empty (Num.u id))]
    | none => []
  (["from: tagged"], head ++ [(taggedValueField, v)])

/-- Modelled from the spec: the serde-derived struct deserializer of
`Tagged<T>` (generated code, not among the provided sources) reads the
optional metadata-id field and the mandatory payload field from a map,
materializing the payload with `T`'s deserializer `deT`. -/
def Tagged.fromMap {T : Type} (deT : Value → Except Error T)
    (m : List (String × Value)) : Except Error (Tagged T) :=
  let idv : Except Error (Option Id) :=
    match dictGet m taggedIdField with
    | none => .ok none
    | some (Value.num _ (Num.u n)) => .ok (some n)
    | some _ => .error "invalid type: expected a metadata id"
  match idv with
  | .error e => .error e
  | .ok i =>
    match dictGet m taggedValueField with
    | some pv =>
      match deT pv with
      | .ok t => .ok ⟨i, t⟩
      | .error e => .error e
    | none => .error "missing field: value"

/-- `Either<A, B>`. -/
inductive Either (A B : Type) where
  | left (a : A)
  | right (b : B)
deriving DecidableEq, Repr

/-- The payload unwrapping step of `Either::deserialize`:
`value.as_dict().and_then(|d| d.get(FIELDS[FIELDS.len() - 1])).unwrap_or(&value)`. -/
def unwrapPayload (fields : List String) (v : Value) : Value :=
  ((v.as_dict.bind (fun d => dictGet d (fields.getLastD ""))).getD v)

/-- `Either::deserialize`, parameterized by the result of
`de.deserialize_struct(A::NAME, A::FIELDS, ValueVisitor)` (`structDe`), `A`'s
field list, and the two branch deserializers `A::deserialize` and
`B::deserialize`. -/
def Either.deserialize {A B : Type}
    (structDe : Except Error Value) (fields : List String)
    (deA : Value → Except Error A) (deB : Value → Except Error B) :
    Except Error (Either A B) :=
  match structDe with
  | .error e => .error e
  | .ok value =>
    match deA value with
    | .ok a => .ok (.left a)
    | .error aErr =>
      match deB (unwrapPayload fields value) with
      | .ok b => .ok (.right b)
      | .error bErr => .error (aErr ++ "; " ++ bErr)

/-- `Either::deserialize` with the two branch deserializers instrumented with
call counters, to account for the number of extraction attempts made. -/
def Either.deserializeCounted {A B : Type}
    (structDe : Except Error Value) (fields : List String)
    (deA : Value → Except Error A) (deB : Value → Except Error B) :
    Except Error (Either A B) × Nat × Nat :=
  match structDe with
  | .error e => (.error e, 0, 0)
  | .ok value =>
    match deA value with
    | .ok a => (.ok (.left a), 1, 0)
    | .error aErr =>
      match deB (unwrapPayload fields value) with
      | .ok b => (.ok (.right b), 1, 1)
      | .error bErr => (.error (aErr ++ "; " ++ bErr), 1, 1)

/-- Modelled from the spec: `deserialize_struct` on the configured value
deserializer (`ConfiguredValueDe` in `value/de.rs`, not among the provided
sources) checks the requested structure name against the magic signatures and,
on a match, invokes that magic type's `deserialize_from` with the value
visitor, which rebuilds the synthetic dict as a `Value`; otherwise the raw
value is handed over generically. -/
def magicStructDe (c : Config) (v : Value) (name : String) : Except Error Value :=
  if name = Tagged.NAME then
    .ok (Value.dict Tag.empty (Tagged.deserialize_from c v).2)
  else if name = RelativePathBuf.NAME then
    .ok (Value.dict Tag.empty (RelativePathBuf.deserialize_from c v).2)
  else .ok v

/-- Modelled from the spec: the extraction bridge materializing a `usize`
(integers convert as long as the value is exactly representable). -/
def deUsize : Value → Except Error Nat
  | .num _ (Num.u n) => .ok n
  | .num _ (Num.i i) => if 0 ≤ i then .ok i.toNat
                        else .error "invalid value: negative integer for usize"
  | _ => .error "invalid type: expected usize"

/-- Modelled from the spec: the extraction bridge materializing a string. -/
def deString : Value → Except Error String
  | .str _ s => .ok s
  | _ => .error "invalid type: expected a string"

/-- Modelled from the spec: one byte of a `Vec<u8>`. -/
def deByte : Value → Except Error Nat
  | .num _ (Num.u n) => if n < 256 then .ok n
                        else .error "invalid value: byte out of range"
  | .num _ (Num.i i) => if 0 ≤ i ∧ i < 256 then .ok i.toNat
                        else .error "invalid value: byte out of range"
  | _ => .error "invalid type: expected a byte"

/-- Modelled from the spec: the extraction bridge materializing a `Vec<u8>`
from a byte sequence. -/
def deBytes : Value → Except Error (List Nat)
  | .arr _ xs => xs.mapM deByte
  | _ => .error "invalid type: expected a byte sequence"

/-- `Tagged::<T>::deserialize` applied to a `Value` deserializer: the derived
struct visitor is driven by the value's dict entries (`Tagged.fromMap`). -/
def deTagged {T : Type} (deT : Value → Except Error T) (v : Value) :
    Except Error (Tagged T) :=
  match v.as_dict with
  | some d => Tagged.fromMap deT d
  | none => .error "invalid type: expected a map"

/-- `RelativePathBuf::deserialize` applied to a `Value` deserializer. -/
def deRPB (v : Value) : Except Error RelativePathBuf :=
  match v.as_dict with
  | some d => RelativePathBuf.fromMap d
  | none => .error "invalid type: expected a map"

/-- Extraction of a `Tagged<T>` from a configured value: the bridge intercepts
the magic signature, runs the reconstruction hook, and the derived struct
deserializer consumes the synthetic dict. -/
def extractTagged {T : Type} (deT : Value → Except Error T) (c : Config)
    (v : Value) : Except Error (Tagged T) :=
  Tagged.fromMap deT (Tagged.deserialize_from c v).2

mutual

/-- Modelled from the spec: the merge engine stamps every value produced by a
provider with a tag referencing the registered metadata. -/
def Value.stamp (id : Id) : Value → Value
  | .null t => .null (t.withId id)
  | .bool t b => .bool (t.withId id) b
  | .str t s => .str (t.withId id) s
  | .num t n => .num (t.withId id) n
  | .arr t xs => .arr (t.withId id) (Value.stampList id xs)
  | .dict t d => .dict (t.withId id) (Value.stampDict id d)

/-- Stamping of every element of an array. -/
def Value.stampList (id : Id) : List Value → List Value
  | [] => []
  | v :: vs => Value.stamp id v :: Value.stampList id vs

/-- Stamping of every entry of a dict. -/
def Value.stampDict (id : Id) : List (String × Value) → List (String × Value)
  | [] => []
  | (k, v) :: ps => (k, Value.stamp id v) :: Value.stampDict id ps

end

/-- Modelled from the spec: `register(record) -> Id` appends to the append-only
metadata table and returns a fresh, never-reused identifier (the new
position). -/
def Config.register (c : Config) (m : Metadata) : Config × Id :=
  (⟨c.metadata ++ [m]⟩, c.metadata.length)

/-- Replacement of a key's value in a document dict (case-insensitive key
identity), appending when the key is absent. -/
def dictSet (d : List (String × Value)) (k : String) (v : Value) :
    List (String × Value) :=
  if d.any (fun p => keyEqCI p.1 k) then
    d.map (fun p => if keyEqCI p.1 k then (k, v) else p)
  else d ++ [(k, v)]

/-- Modelled from the spec: the engine state — the metadata registry plus the
accumulated document (shown here for the selected profile). -/
structure Figment where
  config : Config
  doc : List (String × Value)

/-- Modelled from the spec: one merge operation — register the provider's
metadata record, stamp the provider's value with a tag referencing the fresh
id, and merge it into the document (a scalar or replaced key; the both-dict
recursive case of §4.3 is not exercised by the claims below, which merge
scalar values). -/
def Figment.merge (f : Figment) (m : Metadata) (k : String) (v : Value) :
    Figment × Id :=
  let (c, id) := f.config.register m
  (⟨c, dictSet f.doc k (v.stamp id)⟩, id)

/-! ### Helper lemmas -/

theorem stamp_metadata_id (id : Id) (v : Value) :
    (Value.stamp id v).metadata_id = some id := by
  cases v <;> rfl

theorem dictGet_tagged_id_of_cons (w u : Value) :
    dictGet [(taggedIdField, w), (taggedValueField, u)] taggedIdField = some w := rfl

theorem dictGet_tagged_value_of_cons (w u : Value) :
    dictGet [(taggedIdField, w), (taggedValueField, u)] taggedValueField = some u := rfl

theorem dictGet_tagged_id_of_single (u : Value) :
    dictGet [(taggedValueField, u)] taggedIdField = none := rfl

theorem dictGet_tagged_value_of_single (u : Value) :
    dictGet [(taggedValueField, u)] taggedValueField = some u := rfl

theorem deUsize_stamp (id : Id) (w : Value) :
    deUsize (Value.stamp id w) = deUsize w := by
  cases w with
  | num t n => cases n <;> simp [Value.stamp, deUsize]
  | _ => simp [Value.stamp, deUsize]

theorem extractTagged_ok {T : Type} (deT : Value → Except Error T) (c : Config)
    (v : Value) (t : T) (h : deT v = .ok t) :
    extractTagged deT c v = .ok ⟨v.metadata_id, t⟩ := by
  unfold extractTagged Tagged.deserialize_from Tagged.fromMap
  cases hid : v.metadata_id with
  | none =>
    simp only [List.nil_append, dictGet_tagged_id_of_single,
      dictGet_tagged_value_of_single, h]
  | some id =>
    simp only [List.singleton_append, List.nil_append,
      dictGet_tagged_id_of_cons, dictGet_tagged_value_of_cons, h]

/-! ### Claim theorems -/

/-- C6: two `Tagged` values compare equal exactly when their payloads do; the
metadata ids play no role, so replacing either id (by a distinct or absent
one) never changes the comparison. -/
theorem c6_tagged_eq_payload_only {T : Type} [BEq T] (a b : Tagged T)
    (i j : Option Id) :
    Tagged.eq a b = (a.value == b.value) ∧
    Tagged.eq ⟨i, a.value⟩ ⟨j, b.value⟩ = Tagged.eq a b :=
  ⟨rfl, rfl⟩

/-- C2: `original()` is the path exactly as declared; `relative()` returns it
unchanged when it has a root or when no declaring file is known, and otherwise
joins it onto the directory containing the declaring file (the declaring path
itself when it is a directory). -/
theorem c2_relative_resolution (isDir : FPath → Bool) (p : RelativePathBuf) :
    p.original = p.path ∧
    (p.original.hasRoot = true → p.relative isDir = p.original) ∧
    (p.original.hasRoot = false → p.metadata_path = none →
      p.relative isDir = p.original) ∧
    (∀ mp d, p.original.hasRoot = false → p.metadata_path = some mp →
      (if isDir mp then some mp else mp.parent) = some d →
      p.relative isDir = d.join p.original) := by
  refine ⟨rfl, ?_, ?_, ?_⟩
  · intro h
    simp [RelativePathBuf.relative, h]
  · intro h h2
    simp [RelativePathBuf.relative, h, h2]
  · intro mp d h h2 h3
    simp [RelativePathBuf.relative, h, h2, h3]

/-- Witness for C2 at a concrete input: a path `a/b.html` declared in the
file `/tmp/Config.toml` (not a directory) resolves to `/tmp/a/b.html`. -/
theorem c2_relative_resolution_witness :
    RelativePathBuf.relative (fun _ => false)
      ⟨some ⟨true, ["tmp", "Config.toml"]⟩, ⟨false, ["a", "b.html"]⟩⟩ =
    FPath.join ⟨true, ["tmp"]⟩ ⟨false, ["a", "b.html"]⟩ :=
  (c2_relative_resolution (fun _ => false)
      ⟨some ⟨true, ["tmp", "Config.toml"]⟩, ⟨false, ["a", "b.html"]⟩⟩).2.2.2
    ⟨true, ["tmp", "Config.toml"]⟩ ⟨true, ["tmp"]⟩ rfl rfl (by decide)

/-- C10: `RelativePathBuf` equality is decided by the resolved path alone:
two values are equal exactly when their `relative()` results coincide.  In
particular a value with a different `original()` can be equal when the
resolved paths coincide, and two values with the same `original()` declared in
different directories are unequal. -/
theorem c10_rpb_eq_by_resolved_path (isDir : FPath → Bool)
    (a b : RelativePathBuf) :
    (RelativePathBuf.eq isDir a b = true ↔
      a.relative isDir = b.relative isDir) ∧
    RelativePathBuf.eq (fun _ => false)
      ⟨some ⟨true, ["d1", "f.toml"]⟩, ⟨false, ["x"]⟩⟩
      ⟨none, ⟨true, ["d1", "x"]⟩⟩ = true ∧
    RelativePathBuf.eq (fun _ => false)
      ⟨some ⟨true, ["d1", "f.toml"]⟩, ⟨false, ["x"]⟩⟩
      ⟨some ⟨true, ["d2", "f.toml"]⟩, ⟨false, ["x"]⟩⟩ = false := by
  refine ⟨?_, by decide, by decide⟩
  simp [RelativePathBuf.eq, beq_iff_eq]

/-- C3 (refuting the purity claim at the code): `Tagged`'s reconstruction hook
emits the line `from: tagged` on standard output on every call, and
`RelativePathBuf::relative` consults the filesystem (`Path::is_dir`), so its
result on one and the same extracted value differs between two runs whose
filesystem states differ. -/
theorem c3_extraction_effects :
    (Tagged.deserialize_from ⟨[]⟩ (Value.str Tag.empty "hello")).1 =
      ["from: tagged"] ∧
    RelativePathBuf.relative (fun _ => true)
        ⟨some ⟨false, ["d"]⟩, ⟨false, ["f"]⟩⟩ ≠
      RelativePathBuf.relative (fun _ => false)
        ⟨some ⟨false, ["d"]⟩, ⟨false, ["f"]⟩⟩ :=
  ⟨rfl, by decide⟩

/-- C1: `Either<A, B>` deserialization first attempts extraction as `A`
against the (struct-deserialized) node; exactly when that fails it unwraps the
node to the payload field of `A`'s synthetic dict (last field, falling back to
the raw node) and attempts `B`; a double failure yields the single combined
error of both attempts; and each branch deserializer runs at most once. -/
theorem c1_either_deserialize (A B : Type) (sd : Except Error Value)
    (fields : List String) (deA : Value → Except Error A)
    (deB : Value → Except Error B) :
    (Either.deserializeCounted sd fields deA deB).1 =
      Either.deserialize sd fields deA deB ∧
    (Either.deserializeCounted sd fields deA deB).2.1 ≤ 1 ∧
    (Either.deserializeCounted sd fields deA deB).2.2 ≤ 1 ∧
    (∀ v a, sd = .ok v → deA v = .ok a →
      Either.deserialize sd fields deA deB = .ok (.left a) ∧
      (Either.deserializeCounted sd fields deA deB).2.2 = 0) ∧
    (∀ v ea, sd = .ok v → deA v = .error ea →
      (Either.deserializeCounted sd fields deA deB).2.2 = 1 ∧
      (∀ b, deB (unwrapPayload fields v) = .ok b →
        Either.deserialize sd fields deA deB = .ok (.right b)) ∧
      (∀ eb, deB (unwrapPayload fields v) = .error eb →
        Either.deserialize sd fields deA deB = .error (ea ++ "; " ++ eb))) := by
  cases sd with
  | error e =>
    refine ⟨rfl, Nat.zero_le 1, Nat.zero_le 1, ?_, ?_⟩ <;>
      intro v x h <;> exact absurd h (by simp)
  | ok v =>
    cases hA : deA v with
    | ok a =>
      refine ⟨?_, ?_, ?_, ?_, ?_⟩
      · simp [Either.deserialize, Either.deserializeCounted, hA]
      · simp [Either.deserializeCounted, hA]
      · simp [Either.deserializeCounted, hA]
      · intro v' a' hv ha
        cases hv
        rw [hA] at ha
        cases ha
        exact ⟨by simp [Either.deserialize, hA], by simp [Either.deserializeCounted, hA]⟩
      · intro v' ea hv ha
        cases hv
        rw [hA] at ha
        cases ha
    | error ea =>
      cases hB : deB (unwrapPayload fields v) with
      | ok b =>
        refine ⟨?_, ?_, ?_, ?_, ?_⟩
        · simp [Either.deserialize, Either.deserializeCounted, hA, hB]
        · simp [Either.deserializeCounted, hA, hB]
        · simp [Either.deserializeCounted, hA, hB]
        · intro v' a' hv ha
          cases hv
          rw [hA] at ha
          cases ha
        · intro v' ea' hv ha
          cases hv
          rw [hA] at ha
          cases ha
          refine ⟨by simp [Either.deserializeCounted, hA, hB], ?_, ?_⟩
          · intro b' hb
            rw [hB] at hb
            cases hb
            simp [Either.deserialize, hA, hB]
          · intro eb hb
            rw [hB] at hb
            simp at hb
      | error eb =>
        refine ⟨?_, ?_, ?_, ?_, ?_⟩
        · simp [Either.deserialize, Either.deserializeCounted, hA, hB]
        · simp [Either.deserializeCounted, hA, hB]
        · simp [Either.deserializeCounted, hA, hB]
        · intro v' a' hv ha
          cases hv
          rw [hA] at ha
          cases ha
        · intro v' ea' hv ha
          cases hv
          rw [hA] at ha
          cases ha
          refine ⟨by simp [Either.deserializeCounted, hA, hB], ?_, ?_⟩
          · intro b' hb
            rw [hB] at hb
            simp at hb
          · intro eb' hb
            rw [hB] at hb
            cases hb
            simp [Either.deserialize, hA, hB]

/-- Witness for C1 at concrete inputs: over the node `"hi"` (presented as
`Tagged`'s synthetic dict would not be, i.e. the raw fallback), the `A`
attempt as `usize` fails and the `B` attempt on the unwrapped payload returns
the string, so the result is `Right "hi"`. -/
theorem c1_either_deserialize_witness :
    Either.deserialize (A := Nat) (B := String)
      (.ok (Value.str Tag.empty "hi")) Tagged.FIELDS deUsize deString =
      .ok (.right "hi") := by
  have h := (c1_either_deserialize Nat String (.ok (Value.str Tag.empty "hi"))
      Tagged.FIELDS deUsize deString).2.2.2.2
      (Value.str Tag.empty "hi") "invalid type: expected usize" rfl rfl
  exact h.2.1 "hi" rfl

theorem dictGet_rpb_meta_of_cons (w u : Value) :
    dictGet [(rpbMetaField, w), (rpbPathField, u)] rpbMetaField = some w := rfl

theorem dictGet_rpb_path_of_cons (w u : Value) :
    dictGet [(rpbMetaField, w), (rpbPathField, u)] rpbPathField = some u := rfl

theorem dictGet_rpb_meta_of_single (u : Value) :
    dictGet [(rpbPathField, u)] rpbMetaField = none := rfl

theorem dictGet_rpb_path_of_single (u : Value) :
    dictGet [(rpbPathField, u)] rpbPathField = some u := rfl

/-- C4: `Tagged`'s reconstruction hook produces a synthetic dict whose
metadata-id field is the node's tag id exactly when present (and absent
otherwise) and whose payload field is the original value unchanged; the
extracted `Tagged` exposes the inner value and, via `metadata_id()`, the
originating id. -/
theorem c4_tagged_synthetic_dict {T : Type} (deT : Value → Except Error T)
    (c : Config) (v : Value) :
    dictGet (Tagged.deserialize_from c v).2 taggedIdField =
      v.metadata_id.map (fun id => Value.num Tag.empty (Num.u id)) ∧
    dictGet (Tagged.deserialize_from c v).2 taggedValueField = some v ∧
    (∀ t, deT v = .ok t →
      extractTagged deT c v = .ok ⟨v.metadata_id, t⟩ ∧
      (extractTagged deT c v).map (fun tg => tg.metadata_id) =
        .ok v.metadata_id ∧
      (extractTagged deT c v).map Tagged.into_inner = .ok t) := by
  refine ⟨?_, ?_, ?_⟩
  · cases hid : v.metadata_id with
    | none =>
      have hm : (Tagged.deserialize_from c v).2 = [(taggedValueField, v)] := by
        simp [Tagged.deserialize_from, hid]
      rw [hm]
      exact dictGet_tagged_id_of_single v
    | some id =>
      have hm : (Tagged.deserialize_from c v).2 =
          [(taggedIdField, Value.num Tag.empty (Num.u id)), (taggedValueField, v)] := by
        simp [Tagged.deserialize_from, hid]
      rw [hm]
      exact dictGet_tagged_id_of_cons _ v
  · cases hid : v.metadata_id with
    | none =>
      have hm : (Tagged.deserialize_from c v).2 = [(taggedValueField, v)] := by
        simp [Tagged.deserialize_from, hid]
      rw [hm]
      exact dictGet_tagged_value_of_single v
    | some id =>
      have hm : (Tagged.deserialize_from c v).2 =
          [(taggedIdField, Value.num Tag.empty (Num.u id)), (taggedValueField, v)] := by
        simp [Tagged.deserialize_from, hid]
      rw [hm]
      exact dictGet_tagged_value_of_cons _ v
  · intro t ht
    have he := extractTagged_ok deT c v t ht
    exact ⟨he, by rw [he]; rfl, by rw [he]; rfl⟩

/-- Witness for C4 at a concrete input: a `usize` node tagged with metadata
id 3 extracts to `Tagged { metadata_id: 3, value: 7 }`. -/
theorem c4_tagged_synthetic_dict_witness :
    extractTagged deUsize ⟨[]⟩ (Value.num ⟨none, some 3, 0⟩ (Num.u 7)) =
      .ok ⟨some 3, 7⟩ :=
  ((c4_tagged_synthetic_dict deUsize ⟨[]⟩
      (Value.num ⟨none, some 3, 0⟩ (Num.u 7))).2.2 7 rfl).1

/-- C5: `RelativePathBuf`'s reconstruction hook produces a synthetic dict that
contains the metadata-path field exactly when the node's tag resolves, through
the registry, to a file-backed source (the field then holding that file's
path), and always maps the payload field to the original value unchanged;
after extraction `metadata_path()` is that declaring file path or `None`
accordingly. -/
theorem c5_rpb_synthetic_dict (c : Config) (v : Value) :
    dictGet (RelativePathBuf.deserialize_from c v).2 rpbMetaField =
      (resolvedFilePath c v).map (fun p => Value.str Tag.empty p.display) ∧
    ((dictGet (RelativePathBuf.deserialize_from c v).2 rpbMetaField).isSome ↔
      (resolvedFilePath c v).isSome) ∧
    dictGet (RelativePathBuf.deserialize_from c v).2 rpbPathField = some v ∧
    (∀ tg s mp, v = Value.str tg s → resolvedFilePath c v = some mp →
      FPath.parse mp.display = mp →
      (deRPB (Value.dict Tag.empty (RelativePathBuf.deserialize_from c v).2)).map
        RelativePathBuf.metadata_path = .ok (some mp)) ∧
    (∀ tg s, v = Value.str tg s → resolvedFilePath c v = none →
      (deRPB (Value.dict Tag.empty (RelativePathBuf.deserialize_from c v).2)).map
        RelativePathBuf.metadata_path = .ok none) := by
  have hmeta : ∀ mp, resolvedFilePath c v = some mp →
      (RelativePathBuf.deserialize_from c v).2 =
        [(rpbMetaField, Value.str Tag.empty mp.display), (rpbPathField, v)] := by
    intro mp h
    simp [RelativePathBuf.deserialize_from, h]
  have hnone : resolvedFilePath c v = none →
      (RelativePathBuf.deserialize_from c v).2 = [(rpbPathField, v)] := by
    intro h
    simp [RelativePathBuf.deserialize_from, h]
  refine ⟨?_, ?_, ?_, ?_, ?_⟩
  · cases hres : resolvedFilePath c v with
    | none => rw [hnone hres]; exact dictGet_rpb_meta_of_single v
    | some mp => rw [hmeta mp hres]; exact dictGet_rpb_meta_of_cons _ v
  · cases hres : resolvedFilePath c v with
    | none => rw [hnone hres]; simp [dictGet_rpb_meta_of_single]
    | some mp => rw [hmeta mp hres]; simp [dictGet_rpb_meta_of_cons]
  · cases hres : resolvedFilePath c v with
    | none => rw [hnone hres]; exact dictGet_rpb_path_of_single v
    | some mp => rw [hmeta mp hres]; exact dictGet_rpb_path_of_cons _ v
  · intro tg s mp hv hres hparse
    rw [hmeta mp hres, hv]
    simp only [deRPB, Value.as_dict, RelativePathBuf.fromMap,
      dictGet_rpb_meta_of_cons, dictGet_rpb_path_of_cons, hparse]
    rfl
  · intro tg s hv hres
    rw [hnone hres, hv]
    simp only [deRPB, Value.as_dict, RelativePathBuf.fromMap,
      dictGet_rpb_meta_of_single, dictGet_rpb_path_of_single]
    rfl

/-- Witness for C5 at a concrete input: a path string tagged with the id of a
TOML-file-backed provider at `/tmp/Config.toml` reconstructs with that file as
its `metadata_path()`. -/
theorem c5_rpb_synthetic_dict_witness :
    (deRPB (Value.dict Tag.empty
      (RelativePathBuf.deserialize_from
        ⟨[⟨"TOML file", some (.file ⟨true, ["tmp", "Config.toml"]⟩), false⟩]⟩
        (Value.str ⟨some "default", some 0, 0⟩ "a/b.html")).2)).map
      RelativePathBuf.metadata_path = .ok (some ⟨true, ["tmp", "Config.toml"]⟩) :=
  (c5_rpb_synthetic_dict
      ⟨[⟨"TOML file", some (.file ⟨true, ["tmp", "Config.toml"]⟩), false⟩]⟩
      (Value.str ⟨some "default", some 0, 0⟩ "a/b.html")).2.2.2.1
    ⟨some "default", some 0, 0⟩ "a/b.html" ⟨true, ["tmp", "Config.toml"]⟩
    rfl rfl (by decide)

/-- C7: the documented `Either` examples — extracting
`Either<Tagged<usize>, String>` from an integer source yields `Left` of that
integer, from a string source yields `Right` of that string, and extracting
`Either<RelativePathBuf, Vec<u8>>` from a byte-sequence source yields `Right`
with the original bytes. -/
theorem c7_either_examples :
    Either.deserialize
      (magicStructDe ⟨[⟨"literal", none, false⟩]⟩
        (Value.num ⟨some "default", some 0, 0⟩ (Num.u 10)) Tagged.NAME)
      Tagged.FIELDS (deTagged deUsize) deString = .ok (.left ⟨some 0, 10⟩) ∧
    Either.deserialize
      (magicStructDe ⟨[⟨"literal", none, false⟩]⟩
        (Value.str ⟨some "default", some 0, 0⟩ "hi") Tagged.NAME)
      Tagged.FIELDS (deTagged deUsize) deString = .ok (.right "hi") ∧
    Either.deserialize
      (magicStructDe ⟨[⟨"literal", none, false⟩]⟩
        (Value.arr ⟨some "default", some 0, 0⟩
          [Value.num ⟨some "default", some 0, 0⟩ (Num.u 4),
           Value.num ⟨some "default", some 0, 0⟩ (Num.u 5),
           Value.num ⟨some "default", some 0, 0⟩ (Num.u 6)]) RelativePathBuf.NAME)
      RelativePathBuf.FIELDS deRPB deBytes = .ok (.right [4, 5, 6]) :=
  ⟨rfl, rfl, rfl⟩

/-- C8: within one engine instance every merge registers a fresh metadata
record and receives a distinct, monotonically increasing id, even for
identical content, and `Tagged` values extracted from values sourced by the
two merges carry different metadata ids. -/
theorem c8_fresh_monotone_ids (f : Figment) (m1 m2 : Metadata) (k1 k2 : String)
    (v1 v2 : Value) :
    (f.merge m1 k1 v1).2 < ((f.merge m1 k1 v1).1.merge m2 k2 v2).2 ∧
    (f.merge m1 k1 v1).2 ≠ ((f.merge m1 k1 v1).1.merge m2 k2 v2).2 ∧
    (v1.stamp (f.merge m1 k1 v1).2).metadata_id = some (f.merge m1 k1 v1).2 ∧
    (v2.stamp ((f.merge m1 k1 v1).1.merge m2 k2 v2).2).metadata_id =
      some ((f.merge m1 k1 v1).1.merge m2 k2 v2).2 ∧
    (∀ (T : Type) (deT : Value → Except Error T) (t1 t2 : T) (c : Config),
      deT (v1.stamp (f.merge m1 k1 v1).2) = .ok t1 →
      deT (v2.stamp ((f.merge m1 k1 v1).1.merge m2 k2 v2).2) = .ok t2 →
      ∃ tg1 tg2 : Tagged T,
        extractTagged deT c (v1.stamp (f.merge m1 k1 v1).2) = .ok tg1 ∧
        extractTagged deT c
          (v2.stamp ((f.merge m1 k1 v1).1.merge m2 k2 v2).2) = .ok tg2 ∧
        tg1.metadata_id ≠ tg2.metadata_id) := by
  have hid1 : (f.merge m1 k1 v1).2 = f.config.metadata.length := rfl
  have hid2 : ((f.merge m1 k1 v1).1.merge m2 k2 v2).2 =
      f.config.metadata.length + 1 := by
    simp [Figment.merge, Config.register]
  refine ⟨?_, ?_, stamp_metadata_id _ v1, stamp_metadata_id _ v2, ?_⟩
  · rw [hid1, hid2]
    exact Nat.lt_succ_self _
  · rw [hid1, hid2]
    exact Nat.ne_of_lt (Nat.lt_succ_self _)
  · intro T deT t1 t2 c hd1 hd2
    refine ⟨_, _, extractTagged_ok deT c _ t1 hd1, extractTagged_ok deT c _ t2 hd2, ?_⟩
    simp only [stamp_metadata_id]
    rw [hid1, hid2]
    intro hcontra
    simp at hcontra

/-- Witness for C8 at a concrete input: merging the identical scalar `"same"`
twice into a fresh engine yields extractable `Tagged` values with distinct
metadata ids (0 and 1). -/
theorem c8_fresh_monotone_ids_witness :
    ∃ tg1 tg2 : Tagged String,
      extractTagged deString ⟨[]⟩
        ((Value.str Tag.empty "same").stamp
          ((⟨⟨[]⟩, []⟩ : Figment).merge ⟨"literal", none, false⟩ "k"
            (Value.str Tag.empty "same")).2) = .ok tg1 ∧
      extractTagged deString ⟨[]⟩
        ((Value.str Tag.empty "same").stamp
          (((⟨⟨[]⟩, []⟩ : Figment).merge ⟨"literal", none, false⟩ "k"
              (Value.str Tag.empty "same")).1.merge ⟨"literal", none, false⟩ "k"
            (Value.str Tag.empty "same")).2) = .ok tg2 ∧
      tg1.metadata_id ≠ tg2.metadata_id :=
  (c8_fresh_monotone_ids ⟨⟨[]⟩, []⟩ ⟨"literal", none, false⟩
      ⟨"literal", none, false⟩ "k" "k" (Value.str Tag.empty "same")
      (Value.str Tag.empty "same")).2.2.2.2
    String deString "same" "same" ⟨[]⟩ rfl rfl

/-- C9: extracting a `Tagged<T>`, re-merging its `into_inner()` value, and
re-extracting yields a payload structurally equal to the original payload,
under the spec's guarantees that extraction is tag-insensitive and that the
to/from value conversion of `T` is lossless. -/
theorem c9_roundtrip {T : Type} [DecidableEq T] (deT : Value → Except Error T)
    (serT : T → Value) (f : Figment) (m1 m2 : Metadata) (k1 k2 : String)
    (v : Value) (t : T)
    (htag : ∀ (id : Id) (w : Value), deT (Value.stamp id w) = deT w)
    (hser : ∀ x : T, deT (serT x) = .ok x)
    (h1 : deT v = .ok t) :
    ∃ tg1 tg2 : Tagged T,
      extractTagged deT (f.merge m1 k1 v).1.config
        (v.stamp (f.merge m1 k1 v).2) = .ok tg1 ∧
      extractTagged deT
        ((f.merge m1 k1 v).1.merge m2 k2 (serT tg1.into_inner)).1.config
        ((serT tg1.into_inner).stamp
          ((f.merge m1 k1 v).1.merge m2 k2 (serT tg1.into_inner)).2) = .ok tg2 ∧
      tg2.value = tg1.value ∧ tg1.value = t ∧ Tagged.eq tg1 tg2 = true := by
  have e1 : extractTagged deT (f.merge m1 k1 v).1.config
      (v.stamp (f.merge m1 k1 v).2) = .ok ⟨some (f.merge m1 k1 v).2, t⟩ := by
    have h := extractTagged_ok deT (f.merge m1 k1 v).1.config
      (v.stamp (f.merge m1 k1 v).2) t ((htag _ v).trans h1)
    rwa [stamp_metadata_id] at h
  refine ⟨⟨some (f.merge m1 k1 v).2, t⟩,
    ⟨some ((f.merge m1 k1 v).1.merge m2 k2 (serT t)).2, t⟩, e1, ?_, rfl, rfl, ?_⟩
  · have h2 := extractTagged_ok deT
      ((f.merge m1 k1 v).1.merge m2 k2 (serT t)).1.config
      ((serT t).stamp ((f.merge m1 k1 v).1.merge m2 k2 (serT t)).2) t
      ((htag _ (serT t)).trans (hser t))
    rw [stamp_metadata_id] at h2
    exact h2
  · simp [Tagged.eq]

/-- Witness for C9 at a concrete input: the scalar `42` merged as `usize`,
extracted, re-merged from `into_inner()` and re-extracted, keeps its
payload. -/
theorem c9_roundtrip_witness :
    ∃ tg1 tg2 : Tagged Nat,
      extractTagged deUsize
        ((⟨⟨[]⟩, []⟩ : Figment).merge ⟨"literal", none, false⟩ "k"
          (Value.num Tag.empty (Num.u 42))).1.config
        ((Value.num Tag.empty (Num.u 42)).stamp
          ((⟨⟨[]⟩, []⟩ : Figment).merge ⟨"literal", none, false⟩ "k"
            (Value.num Tag.empty (Num.u 42))).2) = .ok tg1 ∧
      extractTagged deUsize
        (((⟨⟨[]⟩, []⟩ : Figment).merge ⟨"literal", none, false⟩ "k"
            (Value.num Tag.empty (Num.u 42))).1.merge ⟨"literal", none, false⟩
          "k" (Value.num Tag.empty (Num.u tg1.into_inner))).1.config
        ((Value.num Tag.empty (Num.u tg1.into_inner)).stamp
          (((⟨⟨[]⟩, []⟩ : Figment).merge ⟨"literal", none, false⟩ "k"
              (Value.num Tag.empty (Num.u 42))).1.merge ⟨"literal", none, false⟩
            "k" (Value.num Tag.empty (Num.u tg1.into_inner))).2) = .ok tg2 ∧
      tg2.value = tg1.value ∧ tg1.value = 42 ∧ Tagged.eq tg1 tg2 = true :=
  c9_roundtrip deUsize (fun n => Value.num Tag.empty (Num.u n))
    ⟨⟨[]⟩, []⟩ ⟨"literal", none, false⟩ ⟨"literal", none, false⟩ "k" "k"
    (Value.num Tag.empty (Num.u 42)) 42
    (fun id w => deUsize_stamp id w) (fun x => rfl) rfl

end Figment
